import Mathlib

/-!
Shallow embedding of `pwv_kpno/end_user_functions.py`.

The repository exposes `measured_pwv`, `modeled_pwv` and `transmission`.
The on-disk tables (CSV files read with `Table.read`, the `atm_models`
directory) are modelled as explicit parameters: a filtered table is a
`List (DateFields × α)`, the modeled PWV series a `List (ℚ × ℚ)` of
(epoch, pwv) pairs, and the atmospheric model files a `List AtmModel`
in dictionary-insertion order.  Floats are modelled as exact rationals.
-/

/-- Calendar fields of a row timestamp, as used by the filter lambdas
(`x.year == year`, `x.month == month`, `x.day == day`, `x.hour == hour`). -/
structure DateFields where
  year : Int
  month : Int
  day : Int
  hour : Int
deriving DecidableEq, Repr

/-- A dynamically typed Python argument value, restricted to the shapes the
validation code distinguishes: `None`, `int`, `str` (the canonical wrong
type in the spec examples), `float`, and `datetime` (carried as its epoch
coordinate, the only use the code makes of it via `date.timestamp()`). -/
inductive PyVal where
  | none
  | int (n : Int)
  | str (s : String)
  | float (q : ℚ)
  | datetime (epoch : ℚ)
deriving DecidableEq, Repr

/-- The argument names appearing in the error messages. -/
inductive ArgName where
  | year
  | month
  | day
  | hour
deriving DecidableEq, Repr

/-- The errors raised by the three end-user functions, abstracted from the
message strings: `typeErrorInt a p` is the TypeError whose message reads
Argument a (pos p) must be an integer; `depError a p b q` is the ValueError
whose message reads Argument a (pos p) specified without b (pos q);
`typeErrorDate` and `typeErrorAirmass` are the two TypeErrors raised by
`transmission`. -/
inductive PyErr where
  | typeErrorInt (arg : ArgName) (pos : Nat)
  | depError (arg : ArgName) (pos : Nat) (parent : ArgName) (parentPos : Nat)
  | typeErrorDate
  | typeErrorAirmass
deriving DecidableEq, Repr

/-- `isinstance(v, int)` or `v is None`. -/
def isIntOrNone : PyVal → Bool
  | .int _ => true
  | .none => true
  | _ => false

/-- `v is None`. -/
def isNone : PyVal → Bool
  | .none => true
  | _ => false

/-- Python truthiness of the argument values: `None` is falsy, an `int` is
truthy iff nonzero, a `str` iff nonempty, a `float` iff nonzero. -/
def truthy : PyVal → Bool
  | .none => false
  | .int n => n != 0
  | .str s => s != ""
  | .float q => q != 0
  | .datetime _ => true

/-- The integer carried by a `PyVal.int`; 0 elsewhere (only consulted after
the value has been validated to be an integer). -/
def pyIntVal : PyVal → Int
  | .int n => n
  | _ => 0

/-- The shared argument validation of `measured_pwv` and `modeled_pwv`
(lines 117-139 and 196-218 of `end_user_functions.py`), in the exact order
of the source: each type check is an `if`, each dependency check its
`elif`.  Note the source message for a non-integer day says pos 2. -/
def checkArgs (year month day hour : PyVal) : Except PyErr Unit := do
  if !(isIntOrNone year) then
    throw (PyErr.typeErrorInt .year 1)
  else if isNone year && !(isNone month) then
    throw (PyErr.depError .month 2 .year 1)
  if !(isIntOrNone month) then
    throw (PyErr.typeErrorInt .month 2)
  else if isNone month && !(isNone day) then
    throw (PyErr.depError .day 3 .month 2)
  if !(isIntOrNone day) then
    throw (PyErr.typeErrorInt .day 2)
  else if isNone day && !(isNone hour) then
    throw (PyErr.depError .hour 4 .day 3)
  if !(isIntOrNone hour) then
    throw (PyErr.typeErrorInt .hour 4)

/-- Pointwise conjunction of two boolean index vectors
(`np.logical_and`). -/
def zipAnd (a b : List Bool) : List Bool := List.zipWith and a b

/-- Row selection by a boolean index vector
(`pwv_data[np.where(indx)[0]]`). -/
def selectRows {ρ : Type} (tbl : List ρ) (indx : List Bool) : List ρ :=
  (tbl.zip indx).filterMap (fun p => if p.2 then some p.1 else Option.none)

/-- The refinement step of `measured_pwv`/`modeled_pwv` (lines 153-172 and
228-247): if `year` is truthy build the year index vector, conjoin the
month/day/hour vectors for each truthy argument, and select; otherwise
return the full table. -/
def refine {α : Type} (tbl : List (DateFields × α))
    (year month day hour : PyVal) : List (DateFields × α) :=
  if truthy year then
    let dates := tbl.map Prod.fst
    let indx := dates.map (fun x => x.year == pyIntVal year)
    let indx := if truthy month then
        zipAnd indx (dates.map (fun x => x.month == pyIntVal month))
      else indx
    let indx := if truthy day then
        zipAnd indx (dates.map (fun x => x.day == pyIntVal day))
      else indx
    let indx := if truthy hour then
        zipAnd indx (dates.map (fun x => x.hour == pyIntVal hour))
      else indx
    selectRows tbl indx
  else tbl

/-- `measured_pwv(year, month, day, hour)`: validate the four arguments,
then refine the measured-PWV table (here a parameter standing for the
table read from `measured_pwv.csv`). -/
def measured_pwv {α : Type} (tbl : List (DateFields × α))
    (year month day hour : PyVal) : Except PyErr (List (DateFields × α)) := do
  checkArgs year month day hour
  pure (refine tbl year month day hour)

/-- `modeled_pwv(year, month, day, hour)`: the source duplicates the body of
`measured_pwv` over the table read from `modeled_pwv.csv`. -/
def modeled_pwv {α : Type} (tbl : List (DateFields × α))
    (year month day hour : PyVal) : Except PyErr (List (DateFields × α)) := do
  checkArgs year month day hour
  pure (refine tbl year month day hour)

/-- `np.interp` over a list of (x, f) sample points with ascending x: flat
below the first point and above the last, linear in between. -/
def npInterp (x : ℚ) : List (ℚ × ℚ) → ℚ
  | [] => 0
  | [(_, y0)] => y0
  | (x0, y0) :: (x1, y1) :: rest =>
    if x ≤ x0 then y0
    else if x ≤ x1 then y0 + (y1 - y0) * (x - x0) / (x1 - x0)
    else npInterp x ((x1, y1) :: rest)

/-- `np.interp(date.timestamp(), pwv_model.date, pwv_model.pwv)`
(line 277). -/
def zenithPwv (series : List (ℚ × ℚ)) (t : ℚ) : ℚ := npInterp t series

/-- `pwv_los = pwv_z * airmass` (line 280). -/
def losPwv (series : List (ℚ × ℚ)) (t : ℚ) (airmass : ℚ) : ℚ :=
  zenithPwv series t * airmass

/-- One atmospheric model file: its PWV level (parsed from the file name)
and its wavelength and transmission columns. -/
structure AtmModel where
  level : ℚ
  wavelength : List ℚ
  transmission : List ℚ
deriving DecidableEq, Repr

/-- `atm_mods[min(atm_mods.keys())]` (line 291): the model whose PWV level
is minimal, the first such in insertion order. -/
def minModel : List AtmModel → Option AtmModel
  | [] => Option.none
  | m :: ms =>
    some (ms.foldl (fun acc x => if x.level < acc.level then x else acc) m)

/-- The per-wavelength loop of `transmission` (lines 290-303): the
wavelength grid comes from the minimum-level model; at each index `i` the
transmission values of all models at `i`, paired with their PWV levels in
dictionary order, are interpolated at `pwvLos` with `np.interp`. -/
def computeTransmission (mods : List AtmModel) (pwvLos : ℚ) : List (ℚ × ℚ) :=
  match minModel mods with
  | Option.none => []
  | some m0 =>
    (List.range m0.wavelength.length).map (fun i =>
      (m0.wavelength.getD i 0,
       npInterp pwvLos (mods.map (fun m => (m.level, m.transmission.getD i 0)))))

/-- `isinstance(date, datetime)`. -/
def isDatetime : PyVal → Bool
  | .datetime _ => true
  | _ => false

/-- `isinstance(airmass, (float, int))`. -/
def isNumeric : PyVal → Bool
  | .int _ => true
  | .float _ => true
  | _ => false

/-- The numeric value of a validated argument: an `int` or `float` as a
rational, a `datetime` as its epoch coordinate (`date.timestamp()`). -/
def pyRat : PyVal → ℚ
  | .int n => (n : ℚ)
  | .float q => q
  | .datetime t => t
  | _ => 0

/-- `transmission(date, airmass)` (lines 250-303): validate the two
arguments, interpolate the modeled PWV series at the epoch coordinate,
scale by airmass, and interpolate the atmospheric models per wavelength.
The series and model list are parameters standing for the tables read
from disk. -/
def transmission (date airmass : PyVal) (series : List (ℚ × ℚ))
    (mods : List AtmModel) : Except PyErr (List (ℚ × ℚ)) := do
  if !(isDatetime date) then
    throw PyErr.typeErrorDate
  if !(isNumeric airmass) then
    throw PyErr.typeErrorAirmass
  let pwv_z := zenithPwv series (pyRat date)
  let pwv_los := pwv_z * pyRat airmass
  pure (computeTransmission mods pwv_los)

/-- Lift optional integer arguments into the dynamic value type. -/
def toPy : Option Int → PyVal
  | Option.none => PyVal.none
  | some n => PyVal.int n

/-- The dependency chain of the spec: month requires year, day requires
month, hour requires day. -/
def chainOK (y m d h : Option Int) : Prop :=
  (m.isSome → y.isSome) ∧ (d.isSome → m.isSome) ∧ (h.isSome → d.isSome)

instance (y m d h : Option Int) : Decidable (chainOK y m d h) := by
  unfold chainOK; infer_instance

/-- Modelled from the spec: the filter contract of §4.1/§8 as written,
with a per-field predicate for every field actually supplied (present,
regardless of its value).  Used only to compare the code against the
claim. -/
def specFieldMatch : Option Int → Int → Bool
  | Option.none, _ => true
  | some v, a => a == v

/-- Modelled from the spec: `filter_series` per the claim wording —
the subsequence whose timestamps match every supplied field, in original
order. -/
def specFilterSeries {α : Type} (tbl : List (DateFields × α))
    (y m d h : Option Int) : List (DateFields × α) :=
  tbl.filter (fun r =>
    specFieldMatch y r.1.year && specFieldMatch m r.1.month &&
    specFieldMatch d r.1.day && specFieldMatch h r.1.hour)

/-- A field filters iff it is supplied with a nonzero value (Python
truthiness on the validated argument). -/
def truthyMatch : Option Int → Int → Bool
  | Option.none, _ => true
  | some v, a => if v == 0 then true else a == v

/-- The truthiness-based filter the code actually implements: when `year`
is unsupplied or 0 the full table is returned regardless of the other
fields; otherwise the conjunction of the predicates of the nonzero
fields. -/
def truthyFilterSeries {α : Type} (tbl : List (DateFields × α))
    (y m d h : Option Int) : List (DateFields × α) :=
  if (y.getD 0) != 0 then
    tbl.filter (fun r =>
      truthyMatch y r.1.year && truthyMatch m r.1.month &&
      truthyMatch d r.1.day && truthyMatch h r.1.hour)
  else tbl

/-! ## Helper lemmas about `npInterp` -/

/-- `np.interp` clamps to the first sample value at or below the first
x-coordinate. -/
lemma npInterp_le_head (x x0 y0 : ℚ) (rest : List (ℚ × ℚ)) (hx : x ≤ x0) :
    npInterp x ((x0, y0) :: rest) = y0 := by
  cases rest with
  | nil => rfl
  | cons p l =>
    obtain ⟨x1, y1⟩ := p
    simp [npInterp, hx]

/-- `np.interp` skips a sample that lies strictly to the left of the
evaluation point when the next sample also does. -/
lemma npInterp_step (x x0 y0 x1 y1 : ℚ) (l : List (ℚ × ℚ))
    (h0 : ¬ x ≤ x0) (h1 : ¬ x ≤ x1) :
    npInterp x ((x0, y0) :: (x1, y1) :: l) = npInterp x ((x1, y1) :: l) := by
  simp [npInterp, h0, h1]

/-- In a strictly ascending sample list the head x-coordinate bounds the
last one. -/
lemma chain_head_le_last (p : ℚ × ℚ) (l : List (ℚ × ℚ))
    (hs : List.Chain' (fun a b : ℚ × ℚ => a.1 < b.1) (p :: l)) :
    p.1 ≤ ((p :: l).getLast (List.cons_ne_nil p l)).1 := by
  induction l generalizing p with
  | nil => simp
  | cons q l ih =>
    rw [List.getLast_cons (List.cons_ne_nil q l)]
    have h1 : p.1 < q.1 := (List.chain'_cons.mp hs).1
    have h2 := ih q (List.chain'_cons.mp hs).2
    exact le_trans (le_of_lt h1) h2

/-- `np.interp` clamps to the last sample value at or above the last
x-coordinate. -/
lemma npInterp_ge_last (x : ℚ) (pts : List (ℚ × ℚ)) (xe ye : ℚ)
    (hlast : pts.getLast? = some (xe, ye))
    (hs : List.Chain' (fun a b : ℚ × ℚ => a.1 < b.1) pts)
    (hx : xe ≤ x) :
    npInterp x pts = ye := by
  induction pts with
  | nil => simp at hlast
  | cons p l ih =>
    obtain ⟨x0, y0⟩ := p
    cases l with
    | nil =>
      simp at hlast
      obtain ⟨h1, h2⟩ := hlast
      simp [npInterp, h2]
    | cons q l2 =>
      obtain ⟨x1, y1⟩ := q
      have h01 : x0 < x1 := (List.chain'_cons.mp hs).1
      have hst : List.Chain' (fun a b : ℚ × ℚ => a.1 < b.1) ((x1, y1) :: l2) :=
        (List.chain'_cons.mp hs).2
      have hlast2 : ((x1, y1) :: l2).getLast? = some (xe, ye) := by
        rw [List.getLast?_cons_cons] at hlast
        exact hlast
      have hlastv : ((x1, y1) :: l2).getLast (List.cons_ne_nil _ _) = (xe, ye) := by
        have h3 := List.getLast?_eq_getLast_of_ne_nil
          (l := (x1, y1) :: l2) (List.cons_ne_nil _ _)
        rw [hlast2] at h3
        exact Option.some_injective _ h3.symm
      have hx1e : x1 ≤ xe := by
        have h4 := chain_head_le_last (x1, y1) l2 hst
        rw [hlastv] at h4
        exact h4
      have hx0 : ¬ x ≤ x0 := by
        push_neg
        exact lt_of_lt_of_le h01 (le_trans hx1e hx)
      cases l2 with
      | nil =>
        have he1 : x1 = xe := congrArg Prod.fst hlastv
        have he2 : y1 = ye := congrArg Prod.snd hlastv
        by_cases hx1 : x ≤ x1
        · have hxx : x = x1 := le_antisymm hx1 (he1 ▸ hx)
          have hne : x1 - x0 ≠ 0 := sub_ne_zero.mpr (ne_of_gt h01)
          show (if x ≤ x0 then y0
            else if x ≤ x1 then y0 + (y1 - y0) * (x - x0) / (x1 - x0)
            else npInterp x [(x1, y1)]) = ye
          rw [if_neg hx0, if_pos hx1, hxx, ← he2, mul_div_assoc, div_self hne,
            mul_one]
          ring
        · show (if x ≤ x0 then y0
            else if x ≤ x1 then y0 + (y1 - y0) * (x - x0) / (x1 - x0)
            else npInterp x [(x1, y1)]) = ye
          rw [if_neg hx0, if_neg hx1, ← he2]
          rfl
      | cons r l3 =>
        obtain ⟨xr, yr⟩ := r
        have hx1 : ¬ x ≤ x1 := by
          push_neg
          have h1r : x1 < xr := (List.chain'_cons.mp hst).1
          have hrl := chain_head_le_last (xr, yr) l3 (List.chain'_cons.mp hst).2
          have hlastv3 : ((xr, yr) :: l3).getLast (List.cons_ne_nil _ _) = (xe, ye) := by
            have h4 := List.getLast?_eq_getLast_of_ne_nil
              (l := (xr, yr) :: l3) (List.cons_ne_nil _ _)
            rw [List.getLast?_cons_cons] at hlast2
            rw [hlast2] at h4
            exact Option.some_injective _ h4.symm
          rw [hlastv3] at hrl
          calc x1 < xr := h1r
            _ ≤ xe := hrl
            _ ≤ x := hx
        rw [npInterp_step x x0 y0 x1 y1 ((xr, yr) :: l3) hx0 hx1]
        exact ih hlast2 hst

/-- `np.interp` on a strictly ascending sample list evaluates between two
consecutive samples by the linear-interpolation formula. -/
lemma npInterp_bracket (x x0 y0 x1 y1 : ℚ) :
    ∀ (pre suf : List (ℚ × ℚ)),
      List.Pairwise (fun a b : ℚ × ℚ => a.1 < b.1)
        (pre ++ (x0, y0) :: (x1, y1) :: suf) →
      x0 ≤ x → x ≤ x1 →
      npInterp x (pre ++ (x0, y0) :: (x1, y1) :: suf)
        = y0 + (y1 - y0) * (x - x0) / (x1 - x0) := by
  intro pre
  induction pre with
  | nil =>
    intro suf hp hx0 hx1
    simp only [List.nil_append]
    by_cases hxx : x ≤ x0
    · have hex : x = x0 := le_antisymm hxx hx0
      show (if x ≤ x0 then y0
        else if x ≤ x1 then y0 + (y1 - y0) * (x - x0) / (x1 - x0)
        else npInterp x ((x1, y1) :: suf)) = y0 + (y1 - y0) * (x - x0) / (x1 - x0)
      rw [if_pos hxx, hex, sub_self, mul_zero, zero_div, add_zero]
    · show (if x ≤ x0 then y0
        else if x ≤ x1 then y0 + (y1 - y0) * (x - x0) / (x1 - x0)
        else npInterp x ((x1, y1) :: suf)) = y0 + (y1 - y0) * (x - x0) / (x1 - x0)
      rw [if_neg hxx, if_pos hx1]
  | cons p pre2 ih =>
    intro suf hp hx0 hx1
    obtain ⟨px, py⟩ := p
    simp only [List.cons_append] at hp ⊢
    have hpx : px < x0 := (List.pairwise_cons.mp hp).1 (x0, y0)
      (List.mem_append_right pre2 (List.mem_cons_self _ _))
    have hp2 := (List.pairwise_cons.mp hp).2
    have hnx : ¬ x ≤ px := by
      push_neg
      exact lt_of_lt_of_le hpx hx0
    cases pre2 with
    | nil =>
      simp only [List.nil_append] at hp2 ⊢
      by_cases hxx : x ≤ x0
      · have hex : x = x0 := le_antisymm hxx hx0
        have hne : x0 - px ≠ 0 := sub_ne_zero.mpr (ne_of_gt hpx)
        show (if x ≤ px then py
          else if x ≤ x0 then py + (y0 - py) * (x - px) / (x0 - px)
          else npInterp x ((x0, y0) :: (x1, y1) :: suf))
            = y0 + (y1 - y0) * (x - x0) / (x1 - x0)
        rw [if_neg hnx, if_pos hxx, hex, mul_div_assoc, div_self hne, mul_one,
          sub_self, mul_zero, zero_div, add_zero]
        ring
      · rw [npInterp_step x px py x0 y0 ((x1, y1) :: suf) hnx hxx]
        exact ih suf hp2 hx0 hx1
    | cons q pre3 =>
      obtain ⟨qx, qy⟩ := q
      simp only [List.cons_append] at hp2 ⊢
      have hqx : qx < x0 := (List.pairwise_cons.mp hp2).1 (x0, y0)
        (List.mem_append_right pre3 (List.mem_cons_self _ _))
      have hnq : ¬ x ≤ qx := by
        push_neg
        exact lt_of_lt_of_le hqx hx0
      rw [npInterp_step x px py qx qy (pre3 ++ (x0, y0) :: (x1, y1) :: suf) hnx hnq]
      exact ih suf hp2 hx0 hx1

/-! ## Helper lemmas about the filter machinery -/

/-- Conjoining two index vectors built over the same list is a mapped
pointwise conjunction. -/
lemma zipAnd_map {α : Type} (l : List α) (f g : α → Bool) :
    zipAnd (l.map f) (l.map g) = l.map (fun x => f x && g x) := by
  induction l with
  | nil => rfl
  | cons a l ih =>
    simp only [List.map_cons, zipAnd, List.zipWith_cons_cons] at *
    rw [ih]

/-- Selecting rows by a mapped index vector is `List.filter`. -/
lemma selectRows_map {ρ : Type} (tbl : List ρ) (f : ρ → Bool) :
    selectRows tbl (tbl.map f) = tbl.filter f := by
  induction tbl with
  | nil => rfl
  | cons a l ih =>
    simp only [selectRows, List.map_cons, List.zip_cons_cons,
      List.filterMap_cons, List.filter_cons] at *
    by_cases h : f a <;> simp [h, ih]

/-- The index-vector refinement step equals a single filter by the
conjunction of the predicates of the truthy arguments. -/
lemma refine_eq_filter {α : Type} (tbl : List (DateFields × α)) (y m d h : PyVal) :
    refine tbl y m d h
      = if truthy y then
          tbl.filter (fun r =>
            (r.1.year == pyIntVal y)
            && (if truthy m then r.1.month == pyIntVal m else true)
            && (if truthy d then r.1.day == pyIntVal d else true)
            && (if truthy h then r.1.hour == pyIntVal h else true))
        else tbl := by
  by_cases ty : truthy y
  · simp only [refine, ty, if_true]
    by_cases tm : truthy m <;> by_cases td : truthy d <;> by_cases th : truthy h <;>
      simp [tm, td, th, zipAnd_map, List.map_map, Function.comp_def,
        selectRows_map]
  · simp [refine, ty]

/-- The truthy-guarded predicate of one field agrees with `truthyMatch`. -/
lemma field_eq (o : Option Int) (a : Int) :
    (if truthy (toPy o) then a == pyIntVal (toPy o) else true) = truthyMatch o a := by
  rcases o with _ | v
  · rfl
  · by_cases hv : v = 0
    · subst hv
      rfl
    · simp [toPy, truthy, truthyMatch, pyIntVal, hv]

/-- On integer-or-absent arguments, the refinement step computes the
truthiness-based filter. -/
lemma refine_toPy {α : Type} (tbl : List (DateFields × α)) (y m d h : Option Int) :
    refine tbl (toPy y) (toPy m) (toPy d) (toPy h) = truthyFilterSeries tbl y m d h := by
  rw [refine_eq_filter]
  rcases y with _ | yv
  · simp [truthyFilterSeries, toPy, truthy]
  · by_cases hy : yv = 0
    · subst hy
      simp [truthyFilterSeries, toPy, truthy]
    · have h1 : truthy (toPy (some yv)) = true := by simp [toPy, truthy, hy]
      have h2 : ((some yv).getD 0 != 0) = true := by simp [hy]
      rw [truthyFilterSeries, if_pos h2, if_pos h1]
      apply List.filter_congr
      intro r _
      rw [field_eq m, field_eq d, field_eq h]
      have h3 : (r.1.year == pyIntVal (toPy (some yv)))
          = truthyMatch (some yv) r.1.year := by
        simp [toPy, pyIntVal, truthyMatch, hy]
      rw [h3]

/-- Validation succeeds on integer-or-absent arguments that respect the
dependency chain. -/
lemma checkArgs_toPy_ok (y m d h : Option Int) (hc : chainOK y m d h) :
    checkArgs (toPy y) (toPy m) (toPy d) (toPy h) = Except.ok () := by
  rcases y with _ | yv <;> rcases m with _ | mv <;> rcases d with _ | dv <;>
    rcases h with _ | hv <;>
    first
      | rfl
      | (exfalso; simp [chainOK] at hc)

/-! ## Helper lemmas about `minModel` and the wavelength grid -/

/-- Rebuilding a list from `getD` at each index of its range. -/
lemma range_map_getD (l : List ℚ) (d : ℚ) :
    (List.range l.length).map (fun i => l.getD i d) = l := by
  induction l with
  | nil => rfl
  | cons a l ih =>
    rw [List.length_cons, List.range_succ_eq_map, List.map_cons, List.map_map]
    simp only [Function.comp_def, List.getD_cons_zero, List.getD_cons_succ]
    rw [ih]

/-- `getD` on a mapped range evaluates the function. -/
lemma getD_map_range {β : Type} (n i : ℕ) (hi : i < n) (f : ℕ → β) (d : β) :
    ((List.range n).map f).getD i d = f i := by
  have hlen : i < ((List.range n).map f).length := by simpa using hi
  rw [List.getD_eq_getElem _ _ hlen]
  simp

/-- The running-minimum fold is bounded by its seed and by every element. -/
lemma minFold_le (ms : List AtmModel) :
    ∀ a : AtmModel,
      (ms.foldl (fun acc x => if x.level < acc.level then x else acc) a).level ≤ a.level ∧
      ∀ m ∈ ms, (ms.foldl (fun acc x => if x.level < acc.level then x else acc) a).level
        ≤ m.level := by
  induction ms with
  | nil =>
    intro a
    exact ⟨le_refl _, by simp⟩
  | cons b ms ih =>
    intro a
    rw [List.foldl_cons]
    obtain ⟨h1, h2⟩ := ih (if b.level < a.level then b else a)
    have hstep : (if b.level < a.level then b else a).level ≤ a.level ∧
        (if b.level < a.level then b else a).level ≤ b.level := by
      by_cases hb : b.level < a.level
      · rw [if_pos hb]
        exact ⟨le_of_lt hb, le_refl _⟩
      · rw [if_neg hb]
        exact ⟨le_refl _, le_of_not_lt hb⟩
    refine ⟨le_trans h1 hstep.1, ?_⟩
    intro m hm
    rcases List.mem_cons.mp hm with rfl | hm2
    · exact le_trans h1 hstep.2
    · exact h2 m hm2

/-- The running-minimum fold returns its seed or an element. -/
lemma minFold_mem (ms : List AtmModel) :
    ∀ a : AtmModel,
      ms.foldl (fun acc x => if x.level < acc.level then x else acc) a = a ∨
      ms.foldl (fun acc x => if x.level < acc.level then x else acc) a ∈ ms := by
  induction ms with
  | nil =>
    intro a
    exact Or.inl rfl
  | cons b ms ih =>
    intro a
    rw [List.foldl_cons]
    rcases ih (if b.level < a.level then b else a) with h | h
    · rw [h]
      by_cases hb : b.level < a.level
      · rw [if_pos hb]
        exact Or.inr (List.mem_cons_self _ _)
      · rw [if_neg hb]
        exact Or.inl rfl
    · exact Or.inr (List.mem_cons_of_mem _ h)

/-- The running-minimum fold keeps its seed when no element beats it. -/
lemma minFold_id (ms : List AtmModel) :
    ∀ a : AtmModel, (∀ x ∈ ms, ¬ x.level < a.level) →
      ms.foldl (fun acc x => if x.level < acc.level then x else acc) a = a := by
  induction ms with
  | nil =>
    intro a _
    rfl
  | cons b ms ih =>
    intro a hall
    rw [List.foldl_cons, if_neg (hall b (List.mem_cons_self _ _))]
    exact ih a (fun x hx => hall x (List.mem_cons_of_mem _ hx))

/-- On a level-ascending model list the minimum-level model is the head. -/
lemma minModel_sorted (m0 : AtmModel) (rest : List AtmModel)
    (hs : List.Chain' (fun a b : AtmModel => a.level < b.level) (m0 :: rest)) :
    minModel (m0 :: rest) = some m0 := by
  haveI : IsTrans AtmModel (fun a b : AtmModel => a.level < b.level) :=
    ⟨fun _ _ _ h1 h2 => lt_trans h1 h2⟩
  rw [List.chain'_iff_pairwise] at hs
  have hall : ∀ x ∈ rest, ¬ x.level < m0.level := by
    intro x hx
    exact lt_asymm ((List.pairwise_cons.mp hs).1 x hx)
  have hdef : minModel (m0 :: rest)
      = some (rest.foldl (fun acc x => if x.level < acc.level then x else acc) m0) := rfl
  rw [hdef, minFold_id rest m0 hall]

/-! ## Claim theorems -/

/-- Claim C1, counterexample: the claim predicts that supplying
`hour = 0` (with matching year, month, day) filters the table down to the
rows whose hour is 0, but the code tests supplied fields by truthiness and
returns the hour-1 row unchanged. -/
theorem filter_presence_claim_refuted :
    measured_pwv [(⟨2011, 5, 3, 1⟩, (0 : ℚ))] (PyVal.int 2011) (PyVal.int 5)
        (PyVal.int 3) (PyVal.int 0)
      ≠ Except.ok (specFilterSeries [(⟨2011, 5, 3, 1⟩, (0 : ℚ))]
          (some 2011) (some 5) (some 3) (some 0)) := by
  have h1 : measured_pwv [(⟨2011, 5, 3, 1⟩, (0 : ℚ))] (PyVal.int 2011) (PyVal.int 5)
      (PyVal.int 3) (PyVal.int 0) = Except.ok [(⟨2011, 5, 3, 1⟩, (0 : ℚ))] := rfl
  intro h
  rw [h1] at h
  simp [specFilterSeries, specFieldMatch] at h

/-- Claim C1, amended: for integer-or-absent arguments respecting the
dependency chain, `measured_pwv` and `modeled_pwv` return exactly the
subsequence of the table matching every field supplied with a nonzero
value, in original order (fields supplied as 0 are treated as unsupplied,
and when year is unsupplied or 0 the full table is returned regardless of
the remaining fields); with no fields supplied the full table is returned
unchanged. -/
theorem filter_truthiness_correct {α : Type} (tbl : List (DateFields × α))
    (y m d h : Option Int) (hc : chainOK y m d h) :
    measured_pwv tbl (toPy y) (toPy m) (toPy d) (toPy h)
      = Except.ok (truthyFilterSeries tbl y m d h) ∧
    modeled_pwv tbl (toPy y) (toPy m) (toPy d) (toPy h)
      = Except.ok (truthyFilterSeries tbl y m d h) ∧
    (y = Option.none → m = Option.none → d = Option.none → h = Option.none →
      truthyFilterSeries tbl y m d h = tbl) := by
  have hck := checkArgs_toPy_ok y m d h hc
  refine ⟨?_, ?_, ?_⟩
  · simp [measured_pwv, hck, Bind.bind, Except.bind, Pure.pure, Except.pure,
      refine_toPy]
  · simp [modeled_pwv, hck, Bind.bind, Except.bind, Pure.pure, Except.pure,
      refine_toPy]
  · intro h1 h2 h3 h4
    subst h1 h2 h3 h4
    rfl

/-- Witness for the amended C1 theorem at a concrete table and argument
tuple. -/
theorem filter_truthiness_correct_witness :
    chainOK (some 2011) (some 5) (some 3) (some 0) ∧
    measured_pwv [(⟨2011, 5, 3, 1⟩, (0 : ℚ))] (toPy (some 2011)) (toPy (some 5))
        (toPy (some 3)) (toPy (some 0))
      = Except.ok (truthyFilterSeries [(⟨2011, 5, 3, 1⟩, (0 : ℚ))]
          (some 2011) (some 5) (some 3) (some 0)) :=
  ⟨by decide,
   (filter_truthiness_correct [(⟨2011, 5, 3, 1⟩, (0 : ℚ))]
     (some 2011) (some 5) (some 3) (some 0) (by decide)).1⟩

/-- Claim C2: on a level-ascending reference curve set with a shared
wavelength grid, each output transmission value at wavelength index `i` is
the `np.interp` linear interpolation, across the reference PWV levels, of
the curves' transmission values at `i`; at or below the minimum level it
equals the minimum-level curve's value, at or above the maximum level the
maximum-level curve's value; and on the two-level example set
(levels 4 and 6 with curves [0.9, 0.8] and [0.7, 0.6]) evaluation at
los_pwv = 5 yields [0.8, 0.7]. -/
theorem transmission_per_wavelength_interp (mods : List AtmModel) (p : ℚ)
    (m0 : AtmModel) (rest : List AtmModel) (hm : mods = m0 :: rest)
    (hs : List.Chain' (fun a b : AtmModel => a.level < b.level) mods)
    (hg : ∀ m ∈ mods, m.wavelength = m0.wavelength ∧
        m.transmission.length = m0.wavelength.length) :
    (∀ i, i < m0.wavelength.length →
        (computeTransmission mods p).getD i (0, 0)
          = (m0.wavelength.getD i 0,
             npInterp p (mods.map (fun m => (m.level, m.transmission.getD i 0))))) ∧
    (p ≤ m0.level → ∀ i, i < m0.wavelength.length →
        ((computeTransmission mods p).getD i (0, 0)).2 = m0.transmission.getD i 0) ∧
    (∀ mlast, mods.getLast? = some mlast → mlast.level ≤ p →
        ∀ i, i < m0.wavelength.length →
        ((computeTransmission mods p).getD i (0, 0)).2
          = mlast.transmission.getD i 0) ∧
    (computeTransmission
        [⟨4, [7000, 8000], [9/10, 8/10]⟩, ⟨6, [7000, 8000], [7/10, 6/10]⟩] 5
      = [(7000, 8/10), (8000, 7/10)]) := by
  subst hm
  have hmin : minModel (m0 :: rest) = some m0 := minModel_sorted m0 rest hs
  have hct : computeTransmission (m0 :: rest) p
      = (List.range m0.wavelength.length).map (fun i =>
          (m0.wavelength.getD i 0,
           npInterp p ((m0 :: rest).map (fun m => (m.level, m.transmission.getD i 0))))) := by
    unfold computeTransmission
    rw [hmin]
  have hone : ∀ i, i < m0.wavelength.length →
      (computeTransmission (m0 :: rest) p).getD i (0, 0)
        = (m0.wavelength.getD i 0,
           npInterp p ((m0 :: rest).map (fun m => (m.level, m.transmission.getD i 0)))) := by
    intro i hi
    rw [hct]
    exact getD_map_range _ i hi _ _
  refine ⟨hone, ?_, ?_, ?_⟩
  · intro hp i hi
    rw [hone i hi]
    show npInterp p ((m0.level, m0.transmission.getD i 0)
      :: rest.map (fun m => (m.level, m.transmission.getD i 0)))
        = m0.transmission.getD i 0
    exact npInterp_le_head p _ _ _ hp
  · intro mlast hlast hp i hi
    rw [hone i hi]
    show npInterp p ((m0 :: rest).map (fun m => (m.level, m.transmission.getD i 0)))
      = mlast.transmission.getD i 0
    have hmap : ((m0 :: rest).map
        (fun m => (m.level, m.transmission.getD i 0))).getLast?
          = some (mlast.level, mlast.transmission.getD i 0) := by
      rw [List.getLast?_map, hlast]
      rfl
    have hchain : List.Chain' (fun a b : ℚ × ℚ => a.1 < b.1)
        ((m0 :: rest).map (fun m => (m.level, m.transmission.getD i 0))) := by
      rw [List.chain'_map]
      exact hs
    exact npInterp_ge_last p _ _ _ hmap hchain hp
  · norm_num [computeTransmission, minModel, npInterp, List.range_succ]

/-- Witness for C2 at the two-level example curve set of the claim. -/
theorem transmission_per_wavelength_interp_witness :
    computeTransmission
        [⟨4, [7000, 8000], [9/10, 8/10]⟩, ⟨6, [7000, 8000], [7/10, 6/10]⟩] 5
      = [(7000, 8/10), (8000, 7/10)] :=
  (transmission_per_wavelength_interp
    [⟨4, [7000, 8000], [9/10, 8/10]⟩, ⟨6, [7000, 8000], [7/10, 6/10]⟩] 5
    ⟨4, [7000, 8000], [9/10, 8/10]⟩ [⟨6, [7000, 8000], [7/10, 6/10]⟩] rfl
    (List.chain'_cons.mpr ⟨by norm_num, List.chain'_singleton _⟩)
    (by
      intro m hm
      rcases List.mem_cons.mp hm with rfl | hm2
      · exact ⟨rfl, rfl⟩
      · rcases List.mem_cons.mp hm2 with rfl | hm3
        · exact ⟨rfl, rfl⟩
        · simp at hm3)).2.2.2

/-- Claim C3: for a strictly ascending PWV series, `transmission` computes
zenith PWV by piecewise-linear interpolation at the epoch coordinate,
clamping to the first (last) sample value before (after) the series; on
the two-point series (t0, 5.0), (t0 + 1000, 15.0), evaluating with
airmass 1 at t0 + 500 yields 10.0, at t0 - 100 yields 5.0, and at
t0 + 1000 + 100 yields 15.0. -/
theorem zenith_pwv_interp_clamped (series : List (ℚ × ℚ)) (t : ℚ)
    (hs : List.Chain' (fun a b : ℚ × ℚ => a.1 < b.1) series) :
    (∀ x0 y0 rest, series = (x0, y0) :: rest → t ≤ x0 → zenithPwv series t = y0) ∧
    (∀ xe ye, series.getLast? = some (xe, ye) → xe ≤ t → zenithPwv series t = ye) ∧
    (∀ pre x0 y0 x1 y1 suf, series = pre ++ (x0, y0) :: (x1, y1) :: suf →
        x0 ≤ t → t ≤ x1 →
        zenithPwv series t = y0 + (y1 - y0) * (t - x0) / (x1 - x0)) ∧
    (∀ t0 : ℚ,
        losPwv [(t0, 5), (t0 + 1000, 15)] (t0 + 500) 1 = 10 ∧
        losPwv [(t0, 5), (t0 + 1000, 15)] (t0 - 100) 1 = 5 ∧
        losPwv [(t0, 5), (t0 + 1000, 15)] (t0 + 1000 + 100) 1 = 15) := by
  refine ⟨?_, ?_, ?_, ?_⟩
  · intro x0 y0 rest hser hx
    subst hser
    exact npInterp_le_head t x0 y0 rest hx
  · intro xe ye hlast hx
    exact npInterp_ge_last t series xe ye hlast hs hx
  · intro pre x0 y0 x1 y1 suf hser hx0 hx1
    subst hser
    haveI : IsTrans (ℚ × ℚ) (fun a b : ℚ × ℚ => a.1 < b.1) :=
      ⟨fun _ _ _ h1 h2 => lt_trans h1 h2⟩
    rw [List.chain'_iff_pairwise] at hs
    exact npInterp_bracket t x0 y0 x1 y1 pre suf hs hx0 hx1
  · intro t0
    refine ⟨?_, ?_, ?_⟩
    · show npInterp (t0 + 500) [(t0, 5), (t0 + 1000, 15)] * 1 = 10
      show (if t0 + 500 ≤ t0 then (5 : ℚ)
        else if t0 + 500 ≤ t0 + 1000 then 5 + (15 - 5) * (t0 + 500 - t0) / (t0 + 1000 - t0)
        else npInterp (t0 + 500) [(t0 + 1000, 15)]) * 1 = 10
      rw [if_neg (by linarith), if_pos (by linarith)]
      ring_nf
    · show npInterp (t0 - 100) [(t0, 5), (t0 + 1000, 15)] * 1 = 5
      show (if t0 - 100 ≤ t0 then (5 : ℚ)
        else if t0 - 100 ≤ t0 + 1000 then 5 + (15 - 5) * (t0 - 100 - t0) / (t0 + 1000 - t0)
        else npInterp (t0 - 100) [(t0 + 1000, 15)]) * 1 = 5
      rw [if_pos (by linarith)]
      norm_num
    · show npInterp (t0 + 1000 + 100) [(t0, 5), (t0 + 1000, 15)] * 1 = 15
      show (if t0 + 1000 + 100 ≤ t0 then (5 : ℚ)
        else if t0 + 1000 + 100 ≤ t0 + 1000 then
          5 + (15 - 5) * (t0 + 1000 + 100 - t0) / (t0 + 1000 - t0)
        else npInterp (t0 + 1000 + 100) [(t0 + 1000, 15)]) * 1 = 15
      rw [if_neg (by linarith), if_neg (by linarith)]
      norm_num [npInterp]

/-- Witness for C3 at the concrete two-point series with t0 = 0. -/
theorem zenith_pwv_interp_clamped_witness :
    losPwv [((0 : ℚ), 5), (0 + 1000, 15)] (0 + 500) 1 = 10 ∧
    losPwv [((0 : ℚ), 5), (0 + 1000, 15)] (0 - 100) 1 = 5 ∧
    losPwv [((0 : ℚ), 5), (0 + 1000, 15)] (0 + 1000 + 100) 1 = 15 :=
  (zenith_pwv_interp_clamped [((0 : ℚ), 5), (0 + 1000, 15)] 0
    (List.chain'_cons.mpr ⟨by norm_num, List.chain'_singleton _⟩)).2.2.2 0

/-- Claim C4: for every datetime epoch and rational airmass, the result of
`transmission` is the per-wavelength interpolation evaluated at zenith PWV
times airmass; the line-of-sight value is zenith PWV scaled by airmass,
and airmass 2 yields exactly double the airmass-1 value. -/
theorem los_pwv_airmass_scaling (t a : ℚ) (series : List (ℚ × ℚ))
    (mods : List AtmModel) :
    transmission (PyVal.datetime t) (PyVal.float a) series mods
      = Except.ok (computeTransmission mods (zenithPwv series t * a)) ∧
    losPwv series t a = zenithPwv series t * a ∧
    losPwv series t 2 = 2 * losPwv series t 1 := by
  refine ⟨rfl, rfl, ?_⟩
  simp [losPwv]
  ring

/-- Claim C5: the curve returned by `transmission` carries the wavelength
grid of the minimum-level reference curve — the minimum-level model is an
element of the set, its level bounds every level — with one row per grid
point, and the rows ascend in wavelength whenever that grid does. -/
theorem transmission_grid_from_min_level (mods : List AtmModel) (p : ℚ)
    (m0 : AtmModel) (hmin : minModel mods = some m0) :
    m0 ∈ mods ∧ (∀ m ∈ mods, m0.level ≤ m.level) ∧
    (computeTransmission mods p).map Prod.fst = m0.wavelength ∧
    (computeTransmission mods p).length = m0.wavelength.length ∧
    (List.Chain' (fun a b : ℚ => a < b) m0.wavelength →
        List.Chain' (fun a b : ℚ × ℚ => a.1 < b.1) (computeTransmission mods p)) := by
  cases mods with
  | nil => simp [minModel] at hmin
  | cons a rest =>
    have hfold : rest.foldl (fun acc x => if x.level < acc.level then x else acc) a
        = m0 := by
      have h0 : some (rest.foldl (fun acc x => if x.level < acc.level then x else acc) a)
          = some m0 := hmin
      exact Option.some_injective _ h0
    have hmem : m0 ∈ a :: rest := by
      rcases minFold_mem rest a with h | h
      · rw [hfold] at h
        rw [← h]
        exact List.mem_cons_self _ _
      · rw [hfold] at h
        exact List.mem_cons_of_mem _ h
    have hle : ∀ m ∈ a :: rest, m0.level ≤ m.level := by
      intro m hm
      obtain ⟨h1, h2⟩ := minFold_le rest a
      rw [hfold] at h1 h2
      rcases List.mem_cons.mp hm with rfl | hm2
      · exact h1
      · exact h2 m hm2
    have hct : computeTransmission (a :: rest) p
        = (List.range m0.wavelength.length).map (fun i =>
            (m0.wavelength.getD i 0,
             npInterp p ((a :: rest).map (fun m => (m.level, m.transmission.getD i 0))))) := by
      unfold computeTransmission
      rw [hmin]
    have hfst : (computeTransmission (a :: rest) p).map Prod.fst = m0.wavelength := by
      rw [hct, List.map_map]
      simp only [Function.comp_def]
      exact range_map_getD m0.wavelength 0
    refine ⟨hmem, hle, hfst, ?_, ?_⟩
    · rw [hct]
      simp
    · intro hw
      have h5 := (@List.chain'_map ℚ (ℚ × ℚ) (fun u v : ℚ => u < v) Prod.fst
        (computeTransmission (a :: rest) p)).mp
      rw [hfst] at h5
      exact h5 hw

/-- Witness for C5 at the two-level example curve set. -/
theorem transmission_grid_from_min_level_witness :
    (computeTransmission
        [⟨4, [7000, 8000], [9/10, 8/10]⟩, ⟨6, [7000, 8000], [7/10, 6/10]⟩] 5).map
        Prod.fst
      = [7000, 8000] :=
  (transmission_grid_from_min_level
    [⟨4, [7000, 8000], [9/10, 8/10]⟩, ⟨6, [7000, 8000], [7/10, 6/10]⟩] 5
    ⟨4, [7000, 8000], [9/10, 8/10]⟩
    (by norm_num [minModel])).2.2.1

/-- Claim C6: supplying month without year, day without month, or hour
without day makes `measured_pwv` and `modeled_pwv` fail with the ValueError
naming the field and its missing parent, returning no data. -/
theorem dependency_chain_errors :
    (∀ (tbl : List (DateFields × ℚ)) (m : Int) (day hour : PyVal),
        measured_pwv tbl PyVal.none (PyVal.int m) day hour
          = Except.error (PyErr.depError .month 2 .year 1) ∧
        modeled_pwv tbl PyVal.none (PyVal.int m) day hour
          = Except.error (PyErr.depError .month 2 .year 1)) ∧
    (∀ (tbl : List (DateFields × ℚ)) (y : Option Int) (d : Int) (hour : PyVal),
        measured_pwv tbl (toPy y) PyVal.none (PyVal.int d) hour
          = Except.error (PyErr.depError .day 3 .month 2) ∧
        modeled_pwv tbl (toPy y) PyVal.none (PyVal.int d) hour
          = Except.error (PyErr.depError .day 3 .month 2)) ∧
    (∀ (tbl : List (DateFields × ℚ)) (y m : Option Int),
        (m.isSome → y.isSome) → ∀ (hr : Int),
        measured_pwv tbl (toPy y) (toPy m) PyVal.none (PyVal.int hr)
          = Except.error (PyErr.depError .hour 4 .day 3) ∧
        modeled_pwv tbl (toPy y) (toPy m) PyVal.none (PyVal.int hr)
          = Except.error (PyErr.depError .hour 4 .day 3)) := by
  refine ⟨?_, ?_, ?_⟩
  · intro tbl m day hour
    exact ⟨rfl, rfl⟩
  · intro tbl y d hour
    cases y <;> exact ⟨rfl, rfl⟩
  · intro tbl y m hchain hr
    rcases y with _ | yv <;> rcases m with _ | mv
    · exact ⟨rfl, rfl⟩
    · exact absurd (hchain rfl) (by simp)
    · exact ⟨rfl, rfl⟩
    · exact ⟨rfl, rfl⟩

/-- Witness for C6: the three spec examples month=5 without year, day=3
without month, hour=4 without day, on an empty table. -/
theorem dependency_chain_errors_witness :
    measured_pwv ([] : List (DateFields × ℚ)) PyVal.none (PyVal.int 5)
        PyVal.none PyVal.none
      = Except.error (PyErr.depError .month 2 .year 1) ∧
    measured_pwv ([] : List (DateFields × ℚ)) (toPy (some 2011)) PyVal.none
        (PyVal.int 3) PyVal.none
      = Except.error (PyErr.depError .day 3 .month 2) ∧
    measured_pwv ([] : List (DateFields × ℚ)) (toPy (some 2011)) (toPy (some 5))
        PyVal.none (PyVal.int 4)
      = Except.error (PyErr.depError .hour 4 .day 3) :=
  ⟨(dependency_chain_errors.1 [] 5 PyVal.none PyVal.none).1,
   (dependency_chain_errors.2.1 [] (some 2011) 3 PyVal.none).1,
   (dependency_chain_errors.2.2 [] (some 2011) (some 5) (fun _ => rfl) 4).1⟩

/-- Claim C7, code evaluation: a non-integer day makes both functions fail
with the TypeError naming day at position 2, not position 3 as the claim
(and the code's own dependency message for day) states. -/
theorem day_type_error_wrong_position :
    measured_pwv ([] : List (DateFields × ℚ)) (PyVal.int 2011) (PyVal.int 5)
        (PyVal.str "3") PyVal.none
      = Except.error (PyErr.typeErrorInt .day 2) ∧
    modeled_pwv ([] : List (DateFields × ℚ)) (PyVal.int 2011) (PyVal.int 5)
        (PyVal.str "3") PyVal.none
      = Except.error (PyErr.typeErrorInt .day 2) ∧
    PyErr.typeErrorInt .day 2 ≠ PyErr.typeErrorInt .day 3 :=
  ⟨rfl, rfl, by decide⟩

/-- Claim C8: `transmission` fails with the TypeError naming date when date
is not a datetime, and with the TypeError naming airmass when date is a
datetime but airmass is not numeric; in either bad case the result does
not depend on the PWV series or the model files, so the error precedes any
data access. -/
theorem transmission_type_errors_fail_fast (date airmass : PyVal)
    (series : List (ℚ × ℚ)) (mods : List AtmModel) :
    (isDatetime date = false →
       transmission date airmass series mods = Except.error PyErr.typeErrorDate) ∧
    (isDatetime date = true → isNumeric airmass = false →
       transmission date airmass series mods = Except.error PyErr.typeErrorAirmass) ∧
    (isDatetime date = false ∨ isNumeric airmass = false →
       ∀ (series2 : List (ℚ × ℚ)) (mods2 : List AtmModel),
         transmission date airmass series mods
           = transmission date airmass series2 mods2) := by
  refine ⟨?_, ?_, ?_⟩
  · intro hd
    simp [transmission, hd, Bind.bind, Except.bind, throw, throwThe,
      MonadExceptOf.throw, Functor.map, Except.map]
  · intro hd ha
    simp [transmission, hd, ha, Bind.bind, Except.bind, throw, throwThe,
      MonadExceptOf.throw, Functor.map, Except.map, Pure.pure, Except.pure]
  · intro hor series2 mods2
    rcases hor with hbad | hbad
    · simp [transmission, hbad, Bind.bind, Except.bind, throw, throwThe,
        MonadExceptOf.throw, Functor.map, Except.map]
    · cases hdd : isDatetime date <;>
        simp [transmission, hdd, hbad, Bind.bind, Except.bind, throw, throwThe,
          MonadExceptOf.throw, Functor.map, Except.map, Pure.pure, Except.pure]

/-- Witness for C8: a string date and a string airmass. -/
theorem transmission_type_errors_fail_fast_witness :
    transmission (PyVal.str "x") (PyVal.int 1) [] []
      = Except.error PyErr.typeErrorDate ∧
    transmission (PyVal.datetime 0) (PyVal.str "x") [] []
      = Except.error PyErr.typeErrorAirmass :=
  ⟨(transmission_type_errors_fail_fast (PyVal.str "x") (PyVal.int 1) [] []).1 rfl,
   (transmission_type_errors_fail_fast (PyVal.datetime 0) (PyVal.str "x") [] []).2.1
     rfl rfl⟩

/-- Claim C9: `transmission` is a function of its arguments and the
underlying data alone — two calls with identical date, airmass, PWV series
and reference curves produce identical output curves. -/
theorem transmission_deterministic (d a : PyVal) (s : List (ℚ × ℚ))
    (mods : List AtmModel) (d2 a2 : PyVal) (s2 : List (ℚ × ℚ))
    (mods2 : List AtmModel) (hd : d = d2) (ha : a = a2) (hs : s = s2)
    (hm : mods = mods2) :
    transmission d a s mods = transmission d2 a2 s2 mods2 := by
  subst hd ha hs hm
  rfl

/-- Witness for C9 at a concrete repeated call. -/
theorem transmission_deterministic_witness :
    transmission (PyVal.datetime 500) (PyVal.float 1)
        [(0, 5), (1000, 15)] [⟨4, [7000, 8000], [9/10, 8/10]⟩]
      = transmission (PyVal.datetime 500) (PyVal.float 1)
        [(0, 5), (1000, 15)] [⟨4, [7000, 8000], [9/10, 8/10]⟩] :=
  transmission_deterministic (PyVal.datetime 500) (PyVal.float 1)
    [(0, 5), (1000, 15)] [⟨4, [7000, 8000], [9/10, 8/10]⟩]
    (PyVal.datetime 500) (PyVal.float 1)
    [(0, 5), (1000, 15)] [⟨4, [7000, 8000], [9/10, 8/10]⟩]
    rfl rfl rfl rfl

/-- Claim C10: a filter field supplied as the integer 0 is tested by
truthiness, so its predicate is skipped: with hour = 0 (year, month, day
supplied) both functions return exactly what they return with hour
omitted, and in the refinement step a month, day or hour supplied as 0
behaves like an absent argument while year = 0 returns the full table. -/
theorem zero_valued_fields_ignored {α : Type} (tbl : List (DateFields × α))
    (y m : PyVal) (d : Int) (dv hv : PyVal) :
    (measured_pwv tbl y m (PyVal.int d) (PyVal.int 0)
      = measured_pwv tbl y m (PyVal.int d) PyVal.none) ∧
    (modeled_pwv tbl y m (PyVal.int d) (PyVal.int 0)
      = modeled_pwv tbl y m (PyVal.int d) PyVal.none) ∧
    (refine tbl y m dv (PyVal.int 0) = refine tbl y m dv PyVal.none) ∧
    (refine tbl y m (PyVal.int 0) hv = refine tbl y m PyVal.none hv) ∧
    (refine tbl y (PyVal.int 0) dv hv = refine tbl y PyVal.none dv hv) ∧
    (refine tbl (PyVal.int 0) m dv hv = tbl) :=
  ⟨rfl, rfl, rfl, rfl, rfl, rfl⟩
